/-
Verification of the race-analytics specification against the
F1 Replay Animation / Result Prediction repository.

The frontend (React/TypeScript) and the FastAPI championship router are
embedded from the source files.  The analysis backend (stint segmentation,
degradation regression, strategy advisor) is not part of the available
source tree; those components are modelled from the specification text, as
marked on each definition.
-/
import Mathlib

namespace F1

/-! ## Substring search on character lists (embedding of String.includes) -/

/-- Does the list start with the given pattern? (JS String.startsWith on
code units, restricted to the character lists we use.) -/
def startsWithCh : List Char → List Char → Bool
  | _, [] => true
  | [], _ :: _ => false
  | a :: as, b :: bs => a = b && startsWithCh as bs

/-- Does the haystack contain the pattern as a contiguous run?
(JS String.includes.) -/
def hasSubCh : List Char → List Char → Bool
  | l, pat =>
    startsWithCh l pat ||
      (match l with
       | [] => false
       | _ :: t => hasSubCh t pat)

/-- JS String.includes lifted to Lean strings. -/
def strHasSub (s pat : String) : Bool := hasSubCh s.data pat.data

/-! ## Tyre compounds (src/unnamed/part_000, theme/tyres.ts) -/

inductive TyreCompound where
  | SOFT
  | MEDIUM
  | HARD
  | INTERMEDIATE
  | WET
  | UNKNOWN
deriving DecidableEq

/-- Uppercase every character and strip whitespace from both ends of a
character list. -/
def upTrimCh (l : List Char) : List Char :=
  (((l.map Char.toUpper).dropWhile Char.isWhitespace).reverse.dropWhile
      Char.isWhitespace).reverse

/-- Embedding of the sanitising step of normalizeCompound:
raw.toUpperCase().trim(). -/
def upTrim (raw : String) : String := String.mk (upTrimCh raw.data)

/-- Embedding of normalizeCompound (src/unnamed/part_000 lines 18-26):
uppercase and trim the raw string, then test the substrings
SOFT, MED, HARD, INTER, WET in that order. -/
def normalizeCompound (raw : String) : TyreCompound :=
  let s := upTrim raw
  if strHasSub s ("SOFT") then TyreCompound.SOFT
  else if strHasSub s ("MED") then TyreCompound.MEDIUM
  else if strHasSub s ("HARD") then TyreCompound.HARD
  else if strHasSub s ("INTER") then TyreCompound.INTERMEDIATE
  else if strHasSub s ("WET") then TyreCompound.WET
  else TyreCompound.UNKNOWN

/-! ## Lap records and stints -/

/-- The per-lap record of the data model: lap number, lap time in seconds,
tyre compound and the pit flags. -/
structure LapRecord where
  lap : Nat
  lap_time_s : ℚ
  compound : String
  pit_in : Bool
  pit_out : Bool
deriving DecidableEq

/-- A tyre stint as served by the tyres endpoint (src/unnamed/part_004,
type TyreStint): compound, first and last lap, optional pit lap. -/
structure Stint where
  compound : String
  lap_start : Nat
  lap_end : Nat
  pit_lap : Option Nat
deriving DecidableEq

/-- Are the lap numbers contiguous and ascending (each lap number is the
previous one plus one)? -/
def lapsContiguous : List LapRecord → Bool
  | [] => true
  | [_] => true
  | a :: b :: t => decide (b.lap = a.lap + 1) && lapsContiguous (b :: t)

/-- Modelled from the spec: the scanning loop of StintSegmenter, which is
not part of the available source tree.  The current stint (compound and
starting lap) is carried along; a new stint starts whenever the compound
differs from the current one or the previous lap carried a pit-in flag, in
which case the closed stint records the previous lap as its pit lap when a
pit event caused the break.  The final stint closes at the last lap with no
pit lap. -/
def segGo (comp : String) (start : Nat) (prev : LapRecord) :
    List LapRecord → List Stint
  | [] => [⟨comp, start, prev.lap, none⟩]
  | l :: rest =>
    if l.compound ≠ comp ∨ prev.pit_in = true then
      ⟨comp, start, prev.lap, if prev.pit_in then some prev.lap else none⟩ ::
        segGo l.compound l.lap l rest
    else
      segGo comp start l rest

/-- Modelled from the spec: StintSegmenter, which is not part of the
available source tree.  It partitions an ordered lap sequence into tyre
stints and fails with a DataError when lap numbers are non-contiguous or
out of order. -/
def segmentStints : List LapRecord → Except String (List Stint)
  | [] => Except.ok []
  | l :: rest =>
    if lapsContiguous (l :: rest) then Except.ok (segGo l.compound l.lap l rest)
    else Except.error ("DataError: non-contiguous or out-of-order lap numbers")

/-- The laps after a lap numbered k carry the numbers k+1, k+2, ... . -/
def consecFrom (k : Nat) : List LapRecord → Prop
  | [] => True
  | l :: t => l.lap = k + 1 ∧ consecFrom l.lap t

/-- The stints are ordered and chained: the first starts at k, each stint
is non-empty as a lap range, and each subsequent stint starts right after
the previous one ends. -/
def chainedFrom (k : Nat) : List Stint → Prop
  | [] => True
  | s :: t => s.lap_start = k ∧ s.lap_start ≤ s.lap_end ∧ chainedFrom (s.lap_end + 1) t

/-- Sum of the stint lengths, each length being lap_end - lap_start + 1. -/
def sumLens (ss : List Stint) : Nat :=
  (ss.map (fun s => s.lap_end - s.lap_start + 1)).sum

/-- Embedding of the timeline segment width from TyreStintsTimeline
(src/frontend/src/components/TyreStintsTimeline.tsx lines 55-57):
maxLaps > 0 ? ((lap_end - lap_start + 1) / maxLaps) * 100 : 0. -/
def widthPct (maxLaps : Nat) (s : Stint) : ℚ :=
  if 0 < maxLaps then (((s.lap_end - s.lap_start + 1 : Nat) : ℚ) / (maxLaps : ℚ)) * 100
  else 0

/-- Total width of the timeline segments of one driver. -/
def sumWidthPct (maxLaps : Nat) (ss : List Stint) : ℚ :=
  (ss.map (widthPct maxLaps)).sum

theorem lapsContiguous_consecFrom (a : LapRecord) :
    ∀ t : List LapRecord, lapsContiguous (a :: t) = true → consecFrom a.lap t := by
  intro t
  induction t generalizing a with
  | nil => intro _; trivial
  | cons b t ih =>
    intro h
    simp only [lapsContiguous, Bool.and_eq_true, decide_eq_true_eq] at h
    exact ⟨h.1, ih b h.2⟩

theorem segGo_spec :
    ∀ (rest : List LapRecord) (comp : String) (start : Nat) (prev : LapRecord),
      start ≤ prev.lap → consecFrom prev.lap rest →
      chainedFrom start (segGo comp start prev rest) ∧
        sumLens (segGo comp start prev rest) + start = prev.lap + 1 + rest.length := by
  intro rest
  induction rest with
  | nil =>
    intro comp start prev hs _
    refine ⟨⟨rfl, hs, trivial⟩, ?_⟩
    simp only [segGo, sumLens, List.map_cons, List.map_nil, List.sum_cons, List.sum_nil,
      List.length_nil]
    omega
  | cons l rest ih =>
    intro comp start prev hs hc
    obtain ⟨hlap, hc2⟩ := hc
    by_cases hbr : l.compound ≠ comp ∨ prev.pit_in = true
    · have h2 : l.lap ≤ l.lap := le_rfl
      obtain ⟨hch, hsum⟩ := ih l.compound l.lap l h2 hc2
      constructor
      · simp only [segGo, if_pos hbr]
        refine ⟨rfl, hs, ?_⟩
        have : prev.lap + 1 = l.lap := by omega
        rw [this]
        exact hch
      · simp only [segGo, if_pos hbr, sumLens, List.map_cons, List.sum_cons, List.length_cons]
        simp only [sumLens] at hsum
        omega
    · have h2 : start ≤ l.lap := by omega
      obtain ⟨hch, hsum⟩ := ih comp start l h2 hc2
      constructor
      · simpa only [segGo, if_neg hbr] using hch
      · simp only [segGo, if_neg hbr, List.length_cons]
        omega

theorem sumWidthPct_eq (maxLaps : Nat) (hm : 0 < maxLaps) :
    ∀ ss : List Stint, sumWidthPct maxLaps ss = ((sumLens ss : ℚ) / (maxLaps : ℚ)) * 100 := by
  intro ss
  induction ss with
  | nil => simp [sumWidthPct, sumLens]
  | cons s t ih =>
    have hm0 : ((maxLaps : ℚ)) ≠ 0 := by positivity
    simp only [sumWidthPct, List.map_cons, List.sum_cons] at *
    rw [ih, widthPct, if_pos hm]
    simp only [sumLens, List.map_cons, List.sum_cons]
    push_cast
    field_simp
    ring

/-! ## Degradation model (ordinary least squares over the quick laps) -/

/-- Sum of the lap indices x, x+1, ... paired with the list entries. -/
def olsSx : List ℚ → ℚ → ℚ
  | [], _ => 0
  | _ :: t, x => x + olsSx t (x + 1)

/-- Sum of the lap times. -/
def olsSy (ys : List ℚ) : ℚ := ys.sum

/-- Sum of the squared lap indices. -/
def olsSxx : List ℚ → ℚ → ℚ
  | [], _ => 0
  | _ :: t, x => x * x + olsSxx t (x + 1)

/-- Sum of index times lap time. -/
def olsSxy : List ℚ → ℚ → ℚ
  | [], _ => 0
  | y :: t, x => x * y + olsSxy t (x + 1)

/-- Residual sum of squares of the fitted line with slope m and
intercept c, the first entry sitting at index x. -/
def ssRes (m c : ℚ) : List ℚ → ℚ → ℚ
  | [], _ => 0
  | y :: t, x => (y - (c + m * x)) ^ 2 + ssRes m c t (x + 1)

/-- Total sum of squares about the mean ybar. -/
def ssTot (ybar : ℚ) : List ℚ → ℚ
  | [] => 0
  | y :: t => (y - ybar) ^ 2 + ssTot ybar t

/-- Best (minimum) lap time of the list, absent for an empty list. -/
def bestLap : List ℚ → Option ℚ
  | [] => none
  | y :: t =>
    some (match bestLap t with
          | none => y
          | some b => min y b)

/-- Modelled from the spec: the slope of the DegradationModel regression of
lap time against 0-based lap index (the backend model is not part of the
available source tree), in the standard normal-equation form
(n Sxy - Sx Sy) / (n Sxx - Sx squared). -/
def olsSlope (ys : List ℚ) : ℚ :=
  let n : ℚ := ys.length
  let den := n * olsSxx ys 0 - olsSx ys 0 * olsSx ys 0
  if den = 0 then 0 else (n * olsSxy ys 0 - olsSx ys 0 * olsSy ys) / den

/-- Modelled from the spec: the intercept of the DegradationModel
regression, (Sy - slope Sx) / n. -/
def olsIntercept (ys : List ℚ) : ℚ :=
  (olsSy ys - olsSlope ys * olsSx ys 0) / (ys.length : ℚ)

/-- Modelled from the spec: the coefficient of determination of the
DegradationModel regression, computed directly from residuals, and defined
as 1 when the total sum of squares vanishes (all quick laps identical). -/
def olsR2 (ys : List ℚ) : ℚ :=
  let sst := ssTot (olsSy ys / (ys.length : ℚ)) ys
  if sst = 0 then 1 else 1 - ssRes (olsSlope ys) (olsIntercept ys) ys 0 / sst

/-- One record of the degradation endpoint response (src/unnamed/part_004,
type TyreDegradationStint): absent numeric fields are explicit options. -/
structure DegFit where
  laps_used : Nat
  best_lap_s : Option ℚ
  slope_sec_per_lap : Option ℚ
  intercept_s : Option ℚ
  r2 : Option ℚ
  message : String
deriving DecidableEq

/-- Modelled from the spec: DegradationModel on the quick laps of one
stint (the backend model is not part of the available source tree).  When
the sample count is below the configured minimum the slope, intercept and
coefficient of determination are absent and the message states the
insufficient-data condition; otherwise the least-squares fit is
reported. -/
def degradationFit (minLaps : Nat) (quick : List ℚ) : DegFit :=
  if quick.length < minLaps then
    { laps_used := quick.length, best_lap_s := bestLap quick,
      slope_sec_per_lap := none, intercept_s := none, r2 := none,
      message := "insufficient data for fit" }
  else
    { laps_used := quick.length, best_lap_s := bestLap quick,
      slope_sec_per_lap := some (olsSlope quick),
      intercept_s := some (olsIntercept quick),
      r2 := some (olsR2 quick),
      message := "ok" }

/-- Modelled from the spec: the degradation endpoint maps DegradationModel
over the stints of the driver independently, one record per stint, and
always returns the whole list. -/
def degradationStints (minLaps : Nat) (stints : List (List ℚ)) : List DegFit :=
  stints.map (degradationFit minLaps)

/-- A noise-free linear lap sequence starting at index x:
values a + b x, a + b (x+1), ... . -/
def linFrom (a b x : ℚ) : Nat → List ℚ
  | 0 => []
  | n + 1 => (a + b * x) :: linFrom a b (x + 1) n

/-- Synthetic lap times a + b i for i = 0, ..., n-1. -/
def linLaps (a b : ℚ) (n : Nat) : List ℚ := linFrom a b 0 n

/-- Closed form of the index sum starting at x. -/
def sumXFrom (x : ℚ) : Nat → ℚ
  | 0 => 0
  | n + 1 => x + sumXFrom (x + 1) n

/-- Closed form of the squared-index sum starting at x. -/
def sumXXFrom (x : ℚ) : Nat → ℚ
  | 0 => 0
  | n + 1 => x * x + sumXXFrom (x + 1) n

theorem linFrom_length (a b : ℚ) : ∀ (n : Nat) (x : ℚ), (linFrom a b x n).length = n := by
  intro n
  induction n with
  | zero => intro x; rfl
  | succ n ih => intro x; simp [linFrom, ih]

theorem olsSx_eq_sumXFrom : ∀ (l : List ℚ) (x : ℚ), olsSx l x = sumXFrom x l.length := by
  intro l
  induction l with
  | nil => intro x; rfl
  | cons y t ih => intro x; simp [olsSx, sumXFrom, ih]

theorem olsSxx_eq_sumXXFrom : ∀ (l : List ℚ) (x : ℚ), olsSxx l x = sumXXFrom x l.length := by
  intro l
  induction l with
  | nil => intro x; rfl
  | cons y t ih => intro x; simp [olsSxx, sumXXFrom, ih]

theorem olsSy_linFrom (a b : ℚ) :
    ∀ (n : Nat) (x : ℚ), olsSy (linFrom a b x n) = (n : ℚ) * a + b * sumXFrom x n := by
  intro n
  induction n with
  | zero => intro x; simp [linFrom, olsSy, sumXFrom]
  | succ n ih =>
    intro x
    simp only [linFrom, olsSy, List.sum_cons, sumXFrom]
    have := ih (x + 1)
    simp only [olsSy] at this
    rw [this]
    push_cast
    ring

theorem olsSxy_linFrom (a b : ℚ) :
    ∀ (n : Nat) (x : ℚ),
      olsSxy (linFrom a b x n) x = a * sumXFrom x n + b * sumXXFrom x n := by
  intro n
  induction n with
  | zero => intro x; simp [linFrom, olsSxy, sumXFrom, sumXXFrom]
  | succ n ih =>
    intro x
    simp only [linFrom, olsSxy, sumXFrom, sumXXFrom]
    rw [ih (x + 1)]
    ring

theorem sumXFrom_closed :
    ∀ (n : Nat) (x : ℚ), sumXFrom x n = (n : ℚ) * x + (n : ℚ) * ((n : ℚ) - 1) / 2 := by
  intro n
  induction n with
  | zero => intro x; simp [sumXFrom]
  | succ n ih =>
    intro x
    simp only [sumXFrom]
    rw [ih (x + 1)]
    push_cast
    ring

theorem sumXXFrom_closed :
    ∀ (n : Nat) (x : ℚ),
      sumXXFrom x n =
        (n : ℚ) * x ^ 2 + (n : ℚ) * ((n : ℚ) - 1) * x +
          (n : ℚ) * ((n : ℚ) - 1) * (2 * (n : ℚ) - 1) / 6 := by
  intro n
  induction n with
  | zero => intro x; simp [sumXXFrom]
  | succ n ih =>
    intro x
    simp only [sumXXFrom]
    rw [ih (x + 1)]
    push_cast
    ring

theorem ols_den_pos (n : Nat) (h2 : 2 ≤ n) :
    0 < (n : ℚ) * sumXXFrom 0 n - sumXFrom 0 n * sumXFrom 0 n := by
  rw [sumXFrom_closed, sumXXFrom_closed]
  have hn : (2 : ℚ) ≤ (n : ℚ) := by exact_mod_cast h2
  have h1 : (0 : ℚ) < (n : ℚ) := by linarith
  have h3 : (0 : ℚ) < (n : ℚ) - 1 := by linarith
  have h4 : (0 : ℚ) < (n : ℚ) + 1 := by linarith
  have key : (n : ℚ) * ((n : ℚ) * 0 ^ 2 + (n : ℚ) * ((n : ℚ) - 1) * 0 +
        (n : ℚ) * ((n : ℚ) - 1) * (2 * (n : ℚ) - 1) / 6) -
      ((n : ℚ) * 0 + (n : ℚ) * ((n : ℚ) - 1) / 2) *
        ((n : ℚ) * 0 + (n : ℚ) * ((n : ℚ) - 1) / 2) =
      (n : ℚ) ^ 2 * (((n : ℚ) - 1) * (((n : ℚ) + 1) / 12)) := by ring
  rw [key]
  have : (0 : ℚ) < ((n : ℚ) - 1) * (((n : ℚ) + 1) / 12) := by
    apply mul_pos h3
    positivity
  positivity

theorem ssRes_linFrom (a b : ℚ) :
    ∀ (n : Nat) (x : ℚ), ssRes b a (linFrom a b x n) x = 0 := by
  intro n
  induction n with
  | zero => intro x; rfl
  | succ n ih =>
    intro x
    simp only [ssRes, linFrom]
    rw [ih (x + 1)]
    ring

theorem olsSlope_linLaps (a b : ℚ) (n : Nat) (h2 : 2 ≤ n) :
    olsSlope (linLaps a b n) = b := by
  have hden := ols_den_pos n h2
  simp only [olsSlope, linLaps, linFrom_length, olsSx_eq_sumXFrom, olsSxx_eq_sumXXFrom,
    olsSy_linFrom, olsSxy_linFrom]
  rw [if_neg (by intro h; rw [h] at hden; exact lt_irrefl 0 hden)]
  have hnum : (n : ℚ) * (a * sumXFrom 0 n + b * sumXXFrom 0 n) -
      sumXFrom 0 n * ((n : ℚ) * a + b * sumXFrom 0 n) =
      b * ((n : ℚ) * sumXXFrom 0 n - sumXFrom 0 n * sumXFrom 0 n) := by ring
  rw [hnum, mul_div_assoc, div_self (ne_of_gt hden), mul_one]

theorem olsIntercept_linLaps (a b : ℚ) (n : Nat) (h2 : 2 ≤ n) :
    olsIntercept (linLaps a b n) = a := by
  have hn : (0 : ℚ) < (n : ℚ) := by
    have : (2 : ℚ) ≤ (n : ℚ) := by exact_mod_cast h2
    linarith
  have hs : olsSlope (linFrom a b 0 n) = b := olsSlope_linLaps a b n h2
  simp only [olsIntercept, linLaps, hs, linFrom_length, olsSx_eq_sumXFrom, olsSy_linFrom]
  have : (n : ℚ) * a + b * sumXFrom 0 n - b * sumXFrom 0 n = (n : ℚ) * a := by ring
  rw [this, mul_comm, mul_div_assoc, div_self (ne_of_gt hn), mul_one]

theorem olsR2_linLaps (a b : ℚ) (n : Nat) (h2 : 2 ≤ n) :
    olsR2 (linLaps a b n) = 1 := by
  simp only [olsR2]
  by_cases hsst : ssTot (olsSy (linLaps a b n) / ((linLaps a b n).length : ℚ)) (linLaps a b n) = 0
  · rw [if_pos hsst]
  · rw [if_neg hsst, olsSlope_linLaps a b n h2, olsIntercept_linLaps a b n h2]
    have : ssRes b a (linLaps a b n) 0 = 0 := ssRes_linFrom a b n 0
    rw [this, zero_div, sub_zero]

theorem linFrom_const (c : ℚ) :
    ∀ (n : Nat) (x : ℚ), linFrom c 0 x n = List.replicate n c := by
  intro n
  induction n with
  | zero => intro x; rfl
  | succ n ih =>
    intro x
    simp only [linFrom, List.replicate, zero_mul, add_zero]
    rw [ih (x + 1)]

theorem bestLap_replicate (c : ℚ) : ∀ n : Nat, 1 ≤ n → bestLap (List.replicate n c) = some c := by
  intro n
  induction n with
  | zero => intro h; omega
  | succ n ih =>
    intro _
    rcases Nat.eq_zero_or_pos n with hn | hn
    · subst hn; rfl
    · simp only [List.replicate, bestLap, ih hn, min_self]

theorem degradationFit_linLaps (a b : ℚ) (n minLaps : Nat) (h2 : 2 ≤ n) (hm : minLaps ≤ n) :
    degradationFit minLaps (linLaps a b n) =
      { laps_used := n, best_lap_s := bestLap (linLaps a b n),
        slope_sec_per_lap := some b, intercept_s := some a, r2 := some 1,
        message := "ok" } := by
  have hlen : (linLaps a b n).length = n := by simp [linLaps, linFrom_length]
  simp only [degradationFit, hlen]
  rw [if_neg (by omega)]
  simp only [olsSlope_linLaps a b n h2, olsIntercept_linLaps a b n h2, olsR2_linLaps a b n h2]

/-! ## Strategy advisor: pit windows and pit effects -/

/-- A suggested pit window as served by the strategy endpoint
(src/unnamed/part_004, field suggested_pit_window). -/
structure PitWindow where
  from_lap : Nat
  to_lap : Nat
  reason : String
deriving DecidableEq

/-- The per-stint fit summary the advisor consumes: the lap range of the
stint and the optional fitted degradation slope. -/
structure StintFit where
  lap_start : Nat
  lap_end : Nat
  deg_slope : Option ℚ
deriving DecidableEq

/-- Modelled from the spec: the pit-window suggestion of StrategyAdvisor,
which is not part of the available source tree.  A window is suggested
exactly when a fitted slope is present and exceeds the configured
threshold; it covers the final windowLaps laps of the stint, clamped to
the stint length. -/
def suggestPitWindow (threshold : ℚ) (windowLaps : Nat) (s : StintFit) : Option PitWindow :=
  match s.deg_slope with
  | none => none
  | some m =>
    if threshold < m then
      some { from_lap := max s.lap_start (s.lap_end + 1 - windowLaps),
             to_lap := s.lap_end,
             reason := "deg slope " ++ toString m ++ " sec/lap above threshold" }
    else none

/-- A pit effect as served by the strategy endpoint (src/unnamed/part_004,
type PitEffect). -/
structure PitEffect where
  pit_lap : Nat
  pre_window_pace_s : Option ℚ
  post_window_pace_s : Option ℚ
  pace_gain_s : Option ℚ
  label : String
deriving DecidableEq

/-- Modelled from the spec: the pit-effect classification of
StrategyAdvisor, which is not part of the available source tree.  Gain
above epsilon is an undercut-like gain, gain below minus epsilon an
overcut-like loss, anything in between neutral. -/
def classifyGain (eps gain : ℚ) : String :=
  if eps < gain then "undercut-like gain"
  else if gain < -eps then "overcut-like loss"
  else "neutral"

/-- Modelled from the spec: the pit-effect record of StrategyAdvisor.
Gain is pre minus post when both window paces are present; otherwise the
numeric fields stay absent. -/
def mkPitEffect (eps : ℚ) (pitLap : Nat) (pre post : Option ℚ) : PitEffect :=
  match pre, post with
  | some p, some q =>
    ⟨pitLap, some p, some q, some (p - q), classifyGain eps (p - q)⟩
  | _, _ => ⟨pitLap, pre, post, none, "insufficient laps around pit stop"⟩

/-! ## Client fetch and championship router -/

/-- What the network interaction can produce, from the point of view of
fetchJson (src/unnamed/part_003 lines 44-68): the deadline elapsed and the
AbortController cancelled the request, or the server answered with a
non-ok status, or the server answered with a JSON value. -/
inductive FetchOutcome (α : Type) where
  | timedOut
  | httpError (status : Nat) (statusText : String) (body : String)
  | success (value : α)
deriving DecidableEq

/-- The message fetchJson throws when the AbortController fires:
Request timed out after (timeoutMs / 1000)s. -/
def timeoutMessage (timeoutMs : Nat) : String :=
  "Request timed out after " ++ toString (timeoutMs / 1000) ++ "s"

/-- Embedding of fetchJson (src/unnamed/part_003 lines 44-68): a timed-out
request throws the timeout message, a non-ok response throws an HTTP
error message, and only a real server value resolves. -/
def fetchJsonResult {α : Type} (timeoutMs : Nat) (o : FetchOutcome α) : Except String α :=
  match o with
  | FetchOutcome.timedOut => Except.error (timeoutMessage timeoutMs)
  | FetchOutcome.httpError st stx body =>
    Except.error ("HTTP " ++ toString st ++ " " ++ stx ++
      (if body = "" then "" else " — " ++ body))
  | FetchOutcome.success v => Except.ok v

/-- One row of driver_champion (src/unnamed/part_004 line 147). -/
structure ChampRowDriver where
  driver : String
  expected_points : ℚ
deriving DecidableEq

/-- One row of constructor_champion (src/unnamed/part_004 line 148). -/
structure ChampRowTeam where
  team : String
  expected_points : ℚ
deriving DecidableEq

/-- The championship response schema (src/unnamed/part_004 lines 150-155):
season, mode and the two ranking lists.  The schema has no field for the
trial count used. -/
structure ChampionshipFastResponse where
  season : Nat
  mode : String
  driver_champion : List ChampRowDriver
  constructor_champion : Option (List ChampRowTeam)
deriving DecidableEq

/-- The championship request of PredictionPanel (src/unnamed/part_003 line
136) runs with a 45000 ms client deadline.  When that deadline elapses the
AbortController cancels the fetch and the AbortError branch of fetchJson
produces the result; the response body, and with it anything the
simulation computed, is discarded, so the result does not depend on the
number of trials the cancelled run had completed. -/
def champTimeoutResult (completedTrials : Nat) : Except String ChampionshipFastResponse :=
  fetchJsonResult 45000 FetchOutcome.timedOut

/-- What the FastAPI route returns: a value or an HTTPException with a
status code and a detail string. -/
inductive RouterResult (α : Type) where
  | ok (value : α)
  | httpException (status : Nat) (detail : String)
deriving DecidableEq

/-- Embedding of predict_championship (src/unnamed/part_004 lines 287-292):
call simulate_season with the forwarded arguments and convert any raised
exception into HTTPException(status_code=500, detail=str(e)). -/
def predict_championship {α : Type} (simulate : Nat → Option Nat → Except String α)
    (sims : Nat) (upto : Option Nat) : RouterResult α :=
  match simulate sims upto with
  | Except.ok v => RouterResult.ok v
  | Except.error e => RouterResult.httpException 500 e

/-- The query parameters a championship request may carry. -/
structure ChampQuery where
  mode : Option String
  sims : Option Nat
  upto_round : Option Nat
deriving DecidableEq

/-- Embedding of the parameter binding of predict_championship
(src/unnamed/part_004 line 288): the route declares sims (default 300) and
upto_round; the mode query parameter is not declared, so it never reaches
the handler and the sims value is forwarded to simulate_season
unchanged. -/
def routerSimsArg (q : ChampQuery) : Nat := q.sims.getD 300

/-- Embedding of the query string built by getChampionshipFast
(src/unnamed/part_004 lines 170-178): mode=fast and the stringified sims,
whose default parameter value is 5. -/
def getChampionshipFastQuery (sims : Nat) (upto : Option Nat) : List (String × String) :=
  [("mode", "fast"), ("sims", toString sims)] ++
    (match upto with
     | none => []
     | some u => [("upto_round", toString u)])

/-- The sims default of getChampionshipFast (src/unnamed/part_004 line
170). -/
def getChampionshipFastDefaultSims : Nat := 5

/-! ## Display formatters -/

/-- The values a nullable JS number field can hold at the interface:
null, undefined, NaN or a finite number (modelled as a rational). -/
inductive JsNum where
  | nullV
  | undefV
  | nanV
  | num (q : ℚ)
deriving DecidableEq

/-- Decimal digits of a natural number. -/
def natToDigits (n : Nat) : List Char := (toString n).data

/-- Left-pad a digit list with zeros up to length k. -/
def padZeros (k : Nat) (ds : List Char) : List Char :=
  List.replicate (k - ds.length) '0' ++ ds

/-- Number.prototype.toFixed over the rationals: scale by 10^d, round
half up (ties away from the JS float grid are approximated) and print
with d digits after the decimal point.  The scaled integer is the floor
of q 10^d + 1/2, computed on numerator and denominator so that it
evaluates on concrete inputs. -/
def toFixedDec (d : Nat) (q : ℚ) : String :=
  let scaled : ℤ := Int.fdiv (2 * q.num * ((10 ^ d : Nat) : ℤ) + (q.den : ℤ)) (2 * (q.den : ℤ))
  let ds := padZeros (d + 1) (natToDigits scaled.natAbs)
  let k := ds.length - d
  (if scaled < 0 then "-" else "") ++ String.mk (ds.take k) ++
    (if d = 0 then "" else "." ++ String.mk (ds.drop k))

/-- Embedding of fmtPct (src/frontend/src/components/PredictionPanel.tsx
lines 51-54): null, undefined and NaN render as the dash, a number as
(x * 100).toFixed(1) followed by the percent sign. -/
def fmtPct (x : JsNum) : String :=
  match x with
  | JsNum.nullV => "—"
  | JsNum.undefV => "—"
  | JsNum.nanV => "—"
  | JsNum.num q => toFixedDec 1 (q * 100) ++ "%"

/-- Embedding of the inline degradation-slope formatter of
TyreDegradationPanel (src/frontend/src/components/TyreDegradationPanel.tsx
line 120): slope != null ? slope.toFixed(3) + " sec/lap" : the dash.  The
loose inequality lets null and undefined through to the dash, but NaN is a
number, and NaN.toFixed(3) is the string NaN. -/
def fmtSlopeView (x : JsNum) : String :=
  match x with
  | JsNum.nullV => "—"
  | JsNum.undefV => "—"
  | JsNum.nanV => "NaN sec/lap"
  | JsNum.num q => toFixedDec 3 q ++ " sec/lap"

/-! ## Race list filters -/

/-- Code-unit lexicographic comparison, the JS relational comparison on
strings. -/
def lexLtCh : List Char → List Char → Bool
  | [], [] => false
  | [], _ :: _ => true
  | _ :: _, [] => false
  | a :: as, b :: bs => if a < b then true else if b < a then false else lexLtCh as bs

/-- JS string comparison a < b. -/
def jsStrLt (a b : String) : Bool := lexLtCh a.data b.data

/-- A race list entry (src/frontend/src/App.tsx type RaceInfo): round,
name and an optional ISO date string. -/
structure RaceInfo where
  round : ℤ
  raceName : String
  date : Option String
deriving DecidableEq

/-- Embedding of isFutureRace (src/frontend/src/App.tsx lines 22-27):
rounds at or below zero are hidden, a missing (or empty, hence falsy)
date is not future, otherwise the race is future when date >= today,
which for JS strings is the negation of date < today. -/
def isFutureRace (today : String) (r : RaceInfo) : Bool :=
  if r.round ≤ 0 then false
  else
    match r.date with
    | none => false
    | some s => if s = "" then false else !(jsStrLt s today)

/-- Embedding of isPastOrTodayRace (src/frontend/src/App.tsx lines 29-33):
rounds at or below zero are hidden, a missing (or empty, hence falsy)
date counts as selectable in replay, otherwise the race qualifies when
date < today. -/
def isPastOrTodayRace (today : String) (r : RaceInfo) : Bool :=
  if r.round ≤ 0 then false
  else
    match r.date with
    | none => true
    | some s => if s = "" then true else jsStrLt s today

theorem lexLtCh_irrefl : ∀ l : List Char, lexLtCh l l = false := by
  intro l
  induction l with
  | nil => rfl
  | cons a t ih => simp [lexLtCh, ih]

/-! ## Helper lemmas on strings -/

theorem strData_append (a b : String) : (a ++ b).data = a.data ++ b.data := by
  cases a
  cases b
  rfl

theorem append_pct_ne_dash (s : String) : s ++ ("%") ≠ "—" := by
  intro h
  have hd := congrArg String.data h
  rw [strData_append] at hd
  have h1 : ("%" : String).data = ['%'] := rfl
  have h2 : ("—" : String).data = ['—'] := rfl
  rw [h1, h2] at hd
  cases hl : s.data with
  | nil =>
    rw [hl] at hd
    exact absurd hd (by decide)
  | cons c t =>
    rw [hl] at hd
    have := congrArg List.length hd
    simp [List.length_append] at this

theorem append_long_ne_dash (s t : String) (ht : 2 ≤ t.data.length) : s ++ t ≠ "—" := by
  intro h
  have hd := congrArg String.data h
  rw [strData_append] at hd
  have hlen := congrArg List.length hd
  rw [List.length_append] at hlen
  have h2 : ("—" : String).data.length = 1 := rfl
  rw [h2] at hlen
  omega

/-! ## Claim theorems -/

/-- Claim C1: the stints returned by stint reconstruction partition the
laps of a driver: the stints are ordered, the first one starts at the
first lap, each subsequent stint starts at the lap after the previous
lap_end, the stint lengths (lap_end - lap_start + 1) sum to the total lap
count, and consequently the timeline segment widths of that driver sum to
total laps over maxLaps (times 100), with no gap or overlap. -/
theorem C1_stint_partition (laps : List LapRecord) (l : LapRecord)
    (rest : List LapRecord) (ss : List Stint) (maxLaps : Nat)
    (heq : laps = l :: rest) (hok : segmentStints laps = Except.ok ss)
    (hm : 0 < maxLaps) :
    chainedFrom l.lap ss ∧ sumLens ss = laps.length ∧
    sumWidthPct maxLaps ss = ((laps.length : ℚ) / (maxLaps : ℚ)) * 100 := by
  subst heq
  simp only [segmentStints] at hok
  by_cases hc : lapsContiguous (l :: rest) = true
  · rw [if_pos hc] at hok
    have hss : segGo l.compound l.lap l rest = ss := by
      injection hok
    subst hss
    obtain ⟨hch, hsum⟩ :=
      segGo_spec rest l.compound l.lap l le_rfl (lapsContiguous_consecFrom l rest hc)
    have hlen : sumLens (segGo l.compound l.lap l rest) = (l :: rest).length := by
      simp only [List.length_cons]
      omega
    refine ⟨hch, hlen, ?_⟩
    rw [sumWidthPct_eq maxLaps hm, hlen]
  · rw [if_neg hc] at hok
    simp at hok

/-- Witness for C1: a three-lap session with a pit stop on lap 2 and a
compound change on lap 3. -/
theorem C1_witness :
    chainedFrom 1 [⟨"SOFT", 1, 2, some 2⟩, ⟨"MEDIUM", 3, 3, none⟩] ∧
    sumLens [⟨"SOFT", 1, 2, some 2⟩, ⟨"MEDIUM", 3, 3, none⟩] = 3 :=
  ⟨(C1_stint_partition
      [⟨1, 90, "SOFT", false, false⟩, ⟨2, 91, "SOFT", true, false⟩,
        ⟨3, 92, "MEDIUM", false, true⟩]
      ⟨1, 90, "SOFT", false, false⟩
      [⟨2, 91, "SOFT", true, false⟩, ⟨3, 92, "MEDIUM", false, true⟩]
      [⟨"SOFT", 1, 2, some 2⟩, ⟨"MEDIUM", 3, 3, none⟩] 3 rfl rfl (by decide)).1,
   (C1_stint_partition
      [⟨1, 90, "SOFT", false, false⟩, ⟨2, 91, "SOFT", true, false⟩,
        ⟨3, 92, "MEDIUM", false, true⟩]
      ⟨1, 90, "SOFT", false, false⟩
      [⟨2, 91, "SOFT", true, false⟩, ⟨3, 92, "MEDIUM", false, true⟩]
      [⟨"SOFT", 1, 2, some 2⟩, ⟨"MEDIUM", 3, 3, none⟩] 3 rfl rfl (by decide)).2.1⟩

/-- Claim C3: a pit window is suggested if and only if a fitted slope is
present and exceeds the configured threshold; when present the window
lies entirely within the stint lap range, ends at lap_end and covers the
final windowLaps laps of the stint clamped to the stint length. -/
theorem C3_pit_window (th : ℚ) (w : Nat) (s : StintFit)
    (hw : 1 ≤ w) (hs : s.lap_start ≤ s.lap_end) :
    ((suggestPitWindow th w s).isSome = true ↔
      ∃ m, s.deg_slope = some m ∧ th < m) ∧
    (∀ pw, suggestPitWindow th w s = some pw →
      s.lap_start ≤ pw.from_lap ∧ pw.from_lap ≤ pw.to_lap ∧ pw.to_lap = s.lap_end ∧
      pw.to_lap + 1 - pw.from_lap = min w (s.lap_end + 1 - s.lap_start)) := by
  obtain ⟨ls, le, slope⟩ := s
  cases slope with
  | none =>
    constructor
    · simp [suggestPitWindow]
    · intro pw hpw
      simp [suggestPitWindow] at hpw
  | some m =>
    by_cases hth : th < m
    · constructor
      · simp only [suggestPitWindow, if_pos hth]
        exact iff_of_true rfl ⟨m, rfl, hth⟩
      · intro pw hpw
        simp only [suggestPitWindow, if_pos hth, Option.some.injEq] at hpw
        subst hpw
        dsimp only at hs ⊢
        omega
    · constructor
      · simp only [suggestPitWindow, if_neg hth]
        constructor
        · intro h
          simp at h
        · rintro ⟨m2, hm2, hth2⟩
          rw [Option.some.injEq] at hm2
          exact absurd hth2 (hm2 ▸ hth)
      · intro pw hpw
        simp only [suggestPitWindow, if_neg hth] at hpw
        simp at hpw

/-- Witness for C3 at a stint over laps 10-20 with slope 1 and threshold
one tenth. -/
theorem C3_witness :
    ((suggestPitWindow (1 / 10) 3 ⟨10, 20, some (1 : ℚ)⟩).isSome = true ↔
      ∃ m, some (1 : ℚ) = some m ∧ (1 / 10 : ℚ) < m) :=
  (C3_pit_window (1 / 10) 3 ⟨10, 20, some (1 : ℚ)⟩ (by decide) (by decide)).1

/-- Claim C5: a stint with fewer quick laps than the configured minimum
gets absent slope, intercept and coefficient of determination together
with a non-empty insufficient-data message; the call still succeeds with
one record per stint, and every sibling stint still maps to exactly its
own fit. -/
theorem C5_insufficient_data (minLaps : Nat) (stints : List (List ℚ)) (i : Nat)
    (q : List ℚ) (hq : stints[i]? = some q) (hshort : q.length < minLaps) :
    (degradationStints minLaps stints)[i]? = some (degradationFit minLaps q) ∧
    (degradationFit minLaps q).slope_sec_per_lap = none ∧
    (degradationFit minLaps q).intercept_s = none ∧
    (degradationFit minLaps q).r2 = none ∧
    (degradationFit minLaps q).message = "insufficient data for fit" ∧
    (degradationFit minLaps q).message ≠ "" ∧
    (degradationStints minLaps stints).length = stints.length ∧
    (∀ (j : Nat) (r : List ℚ), stints[j]? = some r →
      (degradationStints minLaps stints)[j]? = some (degradationFit minLaps r)) := by
  have hmap : ∀ (j : Nat) (r : List ℚ), stints[j]? = some r →
      (degradationStints minLaps stints)[j]? = some (degradationFit minLaps r) := by
    intro j r hr
    simp [degradationStints, List.getElem?_map, hr]
  refine ⟨hmap i q hq, ?_, ?_, ?_, ?_, ?_, ?_, hmap⟩
  · simp [degradationFit, if_pos hshort]
  · simp [degradationFit, if_pos hshort]
  · simp [degradationFit, if_pos hshort]
  · simp [degradationFit, if_pos hshort]
  · simp only [degradationFit, if_pos hshort]
    decide
  · simp [degradationStints]

/-- Witness for C5: a one-lap stint next to a healthy three-lap stint. -/
theorem C5_witness :
    (degradationFit 3 [(90 : ℚ)]).slope_sec_per_lap = none ∧
    (degradationFit 3 [(90 : ℚ)]).message = "insufficient data for fit" ∧
    (degradationStints 3 [[(90 : ℚ)], [(90 : ℚ), 91, 92]]).length = 2 :=
  ⟨(C5_insufficient_data 3 [[(90 : ℚ)], [(90 : ℚ), 91, 92]] 0 [(90 : ℚ)] rfl
      (by decide)).2.1,
   (C5_insufficient_data 3 [[(90 : ℚ)], [(90 : ℚ), 91, 92]] 0 [(90 : ℚ)] rfl
      (by decide)).2.2.2.2.1,
   (C5_insufficient_data 3 [[(90 : ℚ)], [(90 : ℚ), 91, 92]] 0 [(90 : ℚ)] rfl
      (by decide)).2.2.2.2.2.2.1⟩

/-- Claim C6: the pit-effect gain is pre minus post; the label is the
undercut-like gain exactly when the gain exceeds epsilon and the
overcut-like loss exactly when the gain is below minus epsilon; at pre
92.100s, post 91.200s and epsilon 0.05s the gain is 0.900s with the
undercut-like label, and swapping pre and post yields the overcut-like
label. -/
theorem C6_pit_effect (eps p q : ℚ) (lp : Nat) (heps : 0 ≤ eps) :
    (mkPitEffect eps lp (some p) (some q)).pace_gain_s = some (p - q) ∧
    ((mkPitEffect eps lp (some p) (some q)).label = "undercut-like gain" ↔
      eps < p - q) ∧
    ((mkPitEffect eps lp (some p) (some q)).label = "overcut-like loss" ↔
      p - q < -eps) ∧
    mkPitEffect (1 / 20) 30 (some (921 / 10)) (some (456 / 5)) =
      ⟨30, some (921 / 10), some (456 / 5), some (9 / 10), "undercut-like gain"⟩ ∧
    mkPitEffect (1 / 20) 30 (some (456 / 5)) (some (921 / 10)) =
      ⟨30, some (456 / 5), some (921 / 10), some (-(9 / 10)), "overcut-like loss"⟩ := by
  refine ⟨rfl, ?_, ?_, ?_, ?_⟩
  · simp only [mkPitEffect, classifyGain]
    by_cases h : eps < p - q
    · rw [if_pos h]
      exact iff_of_true rfl h
    · rw [if_neg h]
      refine iff_of_false ?_ h
      by_cases h2 : p - q < -eps
      · rw [if_pos h2]
        decide
      · rw [if_neg h2]
        decide
  · simp only [mkPitEffect, classifyGain]
    by_cases h : eps < p - q
    · rw [if_pos h]
      refine iff_of_false (by decide) ?_
      intro h2
      linarith
    · rw [if_neg h]
      by_cases h2 : p - q < -eps
      · rw [if_pos h2]
        exact iff_of_true rfl h2
      · rw [if_neg h2]
        exact iff_of_false (by decide) h2
  · simp only [mkPitEffect, classifyGain]
    rw [if_pos (by norm_num : (1 / 20 : ℚ) < 921 / 10 - 456 / 5)]
    simp only [PitEffect.mk.injEq, Option.some.injEq]
    norm_num
  · simp only [mkPitEffect, classifyGain]
    rw [if_neg (by norm_num : ¬((1 / 20 : ℚ) < 456 / 5 - 921 / 10)),
      if_pos (by norm_num : (456 / 5 : ℚ) - 921 / 10 < -(1 / 20))]
    simp only [PitEffect.mk.injEq, Option.some.injEq]
    norm_num

/-- Witness for C6 at epsilon zero, pre 92 and post 90. -/
theorem C6_witness :
    (mkPitEffect 0 7 (some (92 : ℚ)) (some (90 : ℚ))).pace_gain_s =
      some ((92 : ℚ) - 90) :=
  (C6_pit_effect 0 92 90 7 (le_refl 0)).1

/-- Claim C7: on quick laps lying exactly on the line intercept plus slope
times lap index the fit recovers that slope and intercept exactly with a
coefficient of determination of 1, and on identical lap times the fit
succeeds with slope 0 and coefficient of determination defined as 1. -/
theorem C7_exact_linear_fit (a b c : ℚ) (n : Nat) (h3 : 3 ≤ n) :
    degradationFit 3 (linLaps a b n) =
      ⟨n, bestLap (linLaps a b n), some b, some a, some 1, "ok"⟩ ∧
    degradationFit 3 (List.replicate n c) =
      ⟨n, some c, some 0, some c, some 1, "ok"⟩ := by
  have h2 : 2 ≤ n := by omega
  refine ⟨degradationFit_linLaps a b n 3 h2 h3, ?_⟩
  have hrep : List.replicate n c = linLaps c 0 n := (linFrom_const c n 0).symm
  rw [hrep, degradationFit_linLaps c 0 n 3 h2 h3, ← hrep,
    bestLap_replicate c n (by omega)]

/-- Witness for C7 at intercept 90, slope one half and four laps. -/
theorem C7_witness :
    degradationFit 3 (linLaps 90 (1 / 2) 4) =
      ⟨4, bestLap (linLaps 90 (1 / 2) 4), some (1 / 2), some 90, some 1, "ok"⟩ :=
  (C7_exact_linear_fit 90 (1 / 2) 80 4 (by decide)).1

/-- Claim C2 counterexample: two championship runs that had completed
different trial counts when the 45000 ms deadline elapsed produce the
identical timed-out result, and that result is a fixed message carrying no
trial count, so the timeout condition cannot report the partial trial
count actually completed. -/
theorem C2_counterexample :
    champTimeoutResult 10 = champTimeoutResult 200 ∧
    champTimeoutResult 10 = Except.error ("Request timed out after 45s") :=
  ⟨rfl, rfl⟩

/-- Claim C2 amended: the championship request carries an explicit client
deadline and a timed-out run is never presented as a success (only a real
server value resolves to ok, and the timed-out run yields the fixed
timeout message), but the timeout carries no partial trial count and the
server route maps every failure, timeouts included, to the single
HTTPException status 500. -/
theorem C2_amended_timeout (timeoutMs n : Nat)
    (o : FetchOutcome ChampionshipFastResponse) (v : ChampionshipFastResponse)
    (hok : fetchJsonResult timeoutMs o = Except.ok v) :
    o = FetchOutcome.success v ∧
    champTimeoutResult n = Except.error (timeoutMessage 45000) ∧
    (∀ (sim : Nat → Option Nat → Except String ChampionshipFastResponse)
       (sims : Nat) (upto : Option Nat) (e : String),
      sim sims upto = Except.error e →
      predict_championship sim sims upto = RouterResult.httpException 500 e) := by
  refine ⟨?_, rfl, ?_⟩
  · cases o with
    | timedOut => simp [fetchJsonResult] at hok
    | httpError st stx body => simp [fetchJsonResult] at hok
    | success w =>
      simp only [fetchJsonResult, Except.ok.injEq] at hok
      rw [hok]
  · intro sim sims upto e he
    simp [predict_championship, he]

/-- Witness for C2 at a successful fetch and a timed-out run. -/
theorem C2_witness :
    FetchOutcome.success (⟨2025, "fast", [], none⟩ : ChampionshipFastResponse) =
      FetchOutcome.success (⟨2025, "fast", [], none⟩ : ChampionshipFastResponse) ∧
    champTimeoutResult 10 = Except.error (timeoutMessage 45000) :=
  ⟨(C2_amended_timeout 45000 10
      (FetchOutcome.success ⟨2025, "fast", [], none⟩) ⟨2025, "fast", [], none⟩ rfl).1,
   (C2_amended_timeout 45000 10
      (FetchOutcome.success ⟨2025, "fast", [], none⟩) ⟨2025, "fast", [], none⟩ rfl).2.1⟩

/-- Claim C4 counterexample: a fast-mode request asking for 1000000 trials
forwards exactly 1000000 as n_sims to simulate_season — far above the 300
route default and the 5 the client uses for fast mode — so the trial count
is not capped server-side regardless of the requested sims value. -/
theorem C4_counterexample :
    routerSimsArg ⟨some ("fast"), some 1000000, none⟩ = 1000000 ∧
    ¬(1000000 ≤ 300) ∧ ¬(1000000 ≤ getChampionshipFastDefaultSims) :=
  ⟨rfl, by decide, by decide⟩

/-- Claim C4 amended: the route forwards the requested sims to
simulate_season unchanged (300 when omitted) and identically for every
mode value, since mode is not a declared parameter; the small fast-mode
trial count exists only because the client getChampionshipFast requests
sims=5; and the route returns exactly what the simulator produced. -/
theorem C4_amended_sims (m m2 : Option String) (s : Nat) (u u2 : Option Nat) :
    routerSimsArg ⟨m, some s, u⟩ = s ∧
    routerSimsArg ⟨m, some s, u⟩ = routerSimsArg ⟨m2, some s, u2⟩ ∧
    routerSimsArg ⟨m, none, u⟩ = 300 ∧
    getChampionshipFastQuery getChampionshipFastDefaultSims none =
      [("mode", "fast"), ("sims", "5")] ∧
    (∀ (sim : Nat → Option Nat → Except String ChampionshipFastResponse)
       (v : ChampionshipFastResponse) (upto : Option Nat),
      sim s upto = Except.ok v → predict_championship sim s upto = RouterResult.ok v) := by
  refine ⟨rfl, rfl, rfl, rfl, ?_⟩
  intro sim v upto h
  simp [predict_championship, h]

/-- Witness for C4 at a fast-mode request for 7 trials. -/
theorem C4_witness :
    routerSimsArg ⟨some ("fast"), some 7, none⟩ = 7 ∧
    predict_championship
        (fun _ _ => Except.ok (⟨2025, "fast", [], none⟩ : ChampionshipFastResponse))
        7 none =
      RouterResult.ok (⟨2025, "fast", [], none⟩ : ChampionshipFastResponse) :=
  ⟨(C4_amended_sims (some ("fast")) none 7 none none).1,
   (C4_amended_sims (some ("fast")) none 7 none none).2.2.2.2
     (fun _ _ => Except.ok ⟨2025, "fast", [], none⟩) ⟨2025, "fast", [], none⟩ none rfl⟩

/-- Claim C8 counterexample: the degradation panel inline formatter
renders a NaN slope as NaN sec/lap rather than as the dash, so the dash is
not rendered exactly when the value is null, undefined or NaN. -/
theorem C8_counterexample :
    fmtSlopeView JsNum.nanV = "NaN sec/lap" ∧ fmtSlopeView JsNum.nanV ≠ "—" :=
  ⟨rfl, by decide⟩

/-- Claim C8 amended: fmtPct renders the dash exactly when the value is
null, undefined or NaN, and the degradation panel slope formatter renders
the dash exactly when the value is null or undefined (a NaN renders as NaN
sec/lap); a computed 0 renders as the numeric strings 0.0 percent and
0.000 sec/lap, so an absent value is always distinguishable from a
computed zero. -/
theorem C8_amended_formatters (x : JsNum) :
    (fmtPct x = "—" ↔ x = JsNum.nullV ∨ x = JsNum.undefV ∨ x = JsNum.nanV) ∧
    (fmtSlopeView x = "—" ↔ x = JsNum.nullV ∨ x = JsNum.undefV) ∧
    fmtPct (JsNum.num 0) = "0.0%" ∧
    fmtSlopeView (JsNum.num 0) = "0.000 sec/lap" := by
  refine ⟨?_, ?_, ?_, ?_⟩
  · cases x with
    | nullV => simp [fmtPct]
    | undefV => simp [fmtPct]
    | nanV => simp [fmtPct]
    | num q => exact iff_of_false (append_pct_ne_dash _) (by simp)
  · cases x with
    | nullV => simp [fmtSlopeView]
    | undefV => simp [fmtSlopeView]
    | nanV =>
      refine iff_of_false (by decide) (by simp)
    | num q =>
      exact iff_of_false (append_long_ne_dash _ (" sec/lap") (by decide)) (by simp)
  · show toFixedDec 1 ((0 : ℚ) * 100) ++ ("%") = "0.0%"
    have h : ((0 : ℚ) * 100) = Rat.divInt 0 1 := by
      rw [Rat.divInt_eq_div]
      norm_num
    rw [h]
    decide
  · show toFixedDec 3 (0 : ℚ) ++ (" sec/lap") = "0.000 sec/lap"
    have h : ((0 : ℚ)) = Rat.divInt 0 1 := by
      rw [Rat.divInt_eq_div]
      norm_num
    rw [h]
    decide

/-- Witness for C8 at the computed zero. -/
theorem C8_witness : fmtPct (JsNum.num 0) = "0.0%" :=
  (C8_amended_formatters (JsNum.num 0)).2.2.1

/-- Claim C9: normalizeCompound tests the substring MED before INTER, so
every raw string whose uppercased trimmed form contains MED and not SOFT
normalizes to MEDIUM; in particular INTERMEDIATE normalizes to MEDIUM and
the intermediate compound is only recognized from strings containing INTER
but not MED, such as INTER itself. -/
theorem C9_med_before_inter (raw : String)
    (hmed : strHasSub (upTrim raw) ("MED") = true)
    (hsoft : strHasSub (upTrim raw) ("SOFT") = false) :
    normalizeCompound raw = TyreCompound.MEDIUM ∧
    normalizeCompound ("INTERMEDIATE") = TyreCompound.MEDIUM ∧
    normalizeCompound ("INTER") = TyreCompound.INTERMEDIATE := by
  refine ⟨?_, by decide, by decide⟩
  simp [normalizeCompound, hmed, hsoft]

/-- Witness for C9 at the lowercase raw string medium. -/
theorem C9_witness :
    strHasSub (upTrim ("medium")) ("MED") = true ∧
    strHasSub (upTrim ("medium")) ("SOFT") = false ∧
    normalizeCompound ("medium") = TyreCompound.MEDIUM :=
  ⟨by decide, by decide,
   (C9_med_before_inter ("medium") (by decide) (by decide)).1⟩

/-- Claim C10: for a fixed current date, a race with positive round
satisfies exactly one of isFutureRace and isPastOrTodayRace; a race whose
date equals today satisfies isFutureRace; a race with no date satisfies
only isPastOrTodayRace; a race with round at most zero satisfies
neither. -/
theorem C10_race_filters (today : String) (r : RaceInfo) :
    (0 < r.round → (isFutureRace today r = true ↔ isPastOrTodayRace today r = false)) ∧
    (0 < r.round → r.date = some today → today ≠ "" → isFutureRace today r = true) ∧
    (0 < r.round → r.date = none →
      isFutureRace today r = false ∧ isPastOrTodayRace today r = true) ∧
    (r.round ≤ 0 → isFutureRace today r = false ∧ isPastOrTodayRace today r = false) := by
  obtain ⟨rd, name, date⟩ := r
  refine ⟨?_, ?_, ?_, ?_⟩
  · intro hr
    have hneg : ¬ rd ≤ 0 := by
      dsimp only at hr
      omega
    cases date with
    | none => simp [isFutureRace, isPastOrTodayRace, hneg]
    | some s =>
      by_cases hemp : s = ""
      · simp [isFutureRace, isPastOrTodayRace, hneg, hemp]
      · simp [isFutureRace, isPastOrTodayRace, hneg, hemp]
  · intro hr hdate hne
    have hneg : ¬ rd ≤ 0 := by
      dsimp only at hr
      omega
    simp only at hdate
    subst hdate
    simp [isFutureRace, hneg, hne, jsStrLt, lexLtCh_irrefl]
  · intro hr hdate
    have hneg : ¬ rd ≤ 0 := by
      dsimp only at hr
      omega
    simp only at hdate
    subst hdate
    simp [isFutureRace, isPastOrTodayRace, hneg]
  · intro hr
    simp [isFutureRace, isPastOrTodayRace, hr]

/-- Witness for C10 at four concrete races around the date 2026-10-12. -/
theorem C10_witness :
    isFutureRace ("2026-10-12") ⟨5, "A", some ("2026-10-12")⟩ = true ∧
    (isFutureRace ("2026-10-12") ⟨6, "B", none⟩ = false ∧
      isPastOrTodayRace ("2026-10-12") ⟨6, "B", none⟩ = true) ∧
    (isFutureRace ("2026-10-12") ⟨0, "T", some ("2026-01-01")⟩ = false ∧
      isPastOrTodayRace ("2026-10-12") ⟨0, "T", some ("2026-01-01")⟩ = false) ∧
    (isFutureRace ("2026-10-12") ⟨3, "C", some ("2026-01-01")⟩ = true ↔
      isPastOrTodayRace ("2026-10-12") ⟨3, "C", some ("2026-01-01")⟩ = false) :=
  ⟨(C10_race_filters ("2026-10-12") ⟨5, "A", some ("2026-10-12")⟩).2.1
      (by decide) rfl (by decide),
   (C10_race_filters ("2026-10-12") ⟨6, "B", none⟩).2.2.1 (by decide) rfl,
   (C10_race_filters ("2026-10-12") ⟨0, "T", some ("2026-01-01")⟩).2.2.2 (by decide),
   (C10_race_filters ("2026-10-12") ⟨3, "C", some ("2026-01-01")⟩).1 (by decide)⟩

end F1
